import Mathlib

/-!
Shallow embedding of the ApplicationInsights-JS utility fragment
(`Util`, `UrlHelper`, `CorrelationIdHelper`, `dateTimeUtils*` from the
TypeScript source, and `tools/subResourceIntegrity/generateIntegrityFile.js`).

Modelling conventions:
* JavaScript strings are modelled by Lean `String`; all string indices are
  character based, which coincides with the JavaScript UTF-16 view on the
  ASCII inputs this code handles.  Regular-expression `.` classes are modelled
  as "any character": the inputs in question (hosts, file names) contain no
  newline characters.
* JavaScript numbers appearing as timestamps are modelled by `Int`,
  `null`/`undefined` by `Option`.
* Exceptions are modelled by `Except`; a thrown exception of an external
  storage object is the `Except.error` case of its operation.
* Mutable static state (`Util._canUseLocalStorage`) is threaded explicitly:
  each storage operation takes the current flag and returns the new flag.
-/

/-! ## JavaScript string primitives -/

/-- Index search used by JavaScript `String.prototype.indexOf`: first position
at which `needle` occurs in `hay`, or `-1`. -/
def listIndexOfAux (needle : List Char) (hay : List Char) (i : Nat) : Int :=
  if needle.isPrefixOf hay then (i : Int)
  else
    match hay with
    | [] => -1
    | _ :: t => listIndexOfAux needle t (i + 1)

/-- JavaScript `s.indexOf(t)`. -/
def jsIndexOf (s t : String) : Int :=
  listIndexOfAux t.toList s.toList 0

/-- JavaScript `s.indexOf(t) !== -1`. -/
def jsContains (s t : String) : Bool :=
  jsIndexOf s t != -1

/-- JavaScript `s.lastIndexOf(t)`: largest position at which `t` occurs, or `-1`. -/
def jsLastIndexOf (s t : String) : Int :=
  match ((List.range (s.toList.length + 1)).filter
      (fun i => t.toList.isPrefixOf (s.toList.drop i))).getLast? with
  | some i => (i : Int)
  | none => -1

/-- Suffix test over character lists (semantics of the core-js `strEndsWith`
helper, i.e. standard JavaScript `String.prototype.endsWith`). -/
def listIsSuffix (t s : List Char) : Bool :=
  t == s.drop (s.length - t.length)

/-- Embedding of the imported core-js helper `strEndsWith` (standard JavaScript
`endsWith` semantics). -/
def strEndsWith (s t : String) : Bool :=
  listIsSuffix t.toList s.toList

/-- JavaScript `s.startsWith(t)`. -/
def jsStartsWith (s t : String) : Bool :=
  t.toList.isPrefixOf s.toList

/-- JavaScript `s.substring(0, n)` (character based). -/
def jsTake (s : String) (n : Nat) : String :=
  (s.toList.take n).asString

/-- JavaScript `s.substring(n)` (character based). -/
def jsDrop (s : String) (n : Nat) : String :=
  (s.toList.drop n).asString

/-- JavaScript `s.toLowerCase()` on ASCII data. -/
def jsToLower (s : String) : String :=
  (s.toList.map Char.toLower).asString

/-- A JavaScript value passed where the source accepts `any`; only the
distinction tested by the core-js `isString` helper matters. -/
inductive JSArg where
  | str (s : String)
  | num (n : Int)
  | nullArg
  | undef
  | boolean (b : Bool)
deriving DecidableEq

/-- Embedding of the imported core-js helper `isString`. -/
def jsIsString : JSArg → Bool
  | JSArg.str _ => true
  | _ => false

/-! ## `Util.disallowsSameSiteNone` -/

/-- Embedding of `Util.disallowsSameSiteNone` (`src/unnamed/part_000`,
lines 372-429): user-agent sniffing for browsers broken by `SameSite=None`. -/
def disallowsSameSiteNone (userAgent : JSArg) : Bool :=
  match userAgent with
  | JSArg.str ua =>
    if jsContains ua "CPU iPhone OS 12" || jsContains ua "iPad; CPU OS 12" then true
    else if jsContains ua "Macintosh; Intel Mac OS X 10_14" && jsContains ua "Version/"
        && jsContains ua "Safari" then true
    else if jsContains ua "Macintosh; Intel Mac OS X 10_14"
        && strEndsWith ua "AppleWebKit/605.1.15 (KHTML, like Gecko)" then true
    else if jsContains ua "Chrome/5" || jsContains ua "Chrome/6" then true
    else if jsContains ua "UnrealEngine" && !jsContains ua "Chrome" then true
    else if jsContains ua "UCBrowser/12" || jsContains ua "UCBrowser/11" then true
    else false
  | _ => false

/-! ## `CorrelationIdHelper.getCorrelationContextValue` -/

/-- Loop body of `getCorrelationContextValue`: first `k=v` pair whose key is
`key` (pairs with a different number of `=`-separated fields are skipped). -/
def findKeyValue (key : String) : List (List String) → Option String
  | [] => none
  | kv :: rest =>
    match kv with
    | [k, v] => if k == key then some v else findKeyValue key rest
    | _ => findKeyValue key rest

/-- Embedding of `CorrelationIdHelper.getCorrelationContextValue`
(`src/unnamed/part_000`, lines 776-786). -/
def getCorrelationContextValue (responseHeader : String) (key : String) : Option String :=
  if responseHeader != "" then
    findKeyValue key ((responseHeader.splitOn ",").map (fun s => s.splitOn "="))
  else none

/-! ## `dateTimeUtilsDuration` -/

/-- Embedding of `dateTimeUtilsDuration` (`src/unnamed/part_000`,
lines 836-843).  `none` models a `null`/`undefined` argument as merged by
`isNullOrUndefined`; the result `none` models the `null` return. -/
def dateTimeUtilsDuration (start fin : Option Int) : Option Int :=
  match start, fin with
  | some a, some b => if a != 0 && b != 0 then some (b - a) else none
  | _, _ => none

/-- The part of the `IDateTimeUtils` record built at lines 845-865 that is
pure (`Now` reads the clock and is not modelled). -/
structure IDateTimeUtilsPure where
  GetDuration : Option Int → Option Int → Option Int

/-- Embedding of the `DateTimeUtils` constant (lines 860-865). -/
def DateTimeUtils : IDateTimeUtilsPure :=
  { GetDuration := dateTimeUtilsDuration }

/-! ## Local storage (`Util.getStorage` / `setStorage` / `removeStorage`)

The browser `localStorage` object is modelled by its behaviour: each operation
either returns normally (`Except.ok`) or throws (`Except.error ()`).  The
verification writes performed by `_getVerifiedStorageObject` use a fresh
`Date`-derived key `uid`; content mutation of the store is not observable in
the claims and is folded into the fixed behaviour functions. -/

/-- Behaviour of a browser `Storage` object.  `getItem` returns
`string | null`, any operation may throw. -/
structure StorageObj where
  getItem : String → Except Unit (Option String)
  setItem : String → String → Except Unit Unit
  removeItem : String → Except Unit Unit

/-- The browser environment seen by the storage helpers: whether a global
object exists, the `localStorage` instance (`none` models `undefined`), and
the `Date`-derived probe key. -/
structure StorageEnv where
  hasGlobal : Bool
  storage : Option StorageObj
  uid : String

/-- Embedding of `Util._getVerifiedStorageObject` (`src/unnamed/part_000`,
lines 106-127) for `StorageType.LocalStorage`: probes the storage object with
`uid` and returns `null` if any step throws or the read-back fails.
Accessing a member of an `undefined` storage object throws, hence the
`none => none` case. -/
def getVerifiedStorageObject (env : StorageEnv) : Option StorageObj :=
  if !env.hasGlobal then none
  else
    match env.storage with
    | none => none
    | some st =>
      match st.setItem env.uid env.uid with
      | Except.error _ => none
      | Except.ok _ =>
        match st.getItem env.uid with
        | Except.error _ => none
        | Except.ok v =>
          match st.removeItem env.uid with
          | Except.error _ => none
          | Except.ok _ => if v != some env.uid then none else some st

/-- Embedding of `Util.canUseLocalStorage` (lines 144-150).  The first
component is the returned flag, the second the new value of the static
`Util._canUseLocalStorage` (`none` models `undefined`). -/
def canUseLocalStorage (flag : Option Bool) (env : StorageEnv) : Bool × Option Bool :=
  match flag with
  | none =>
    ((getVerifiedStorageObject env).isSome, some (getVerifiedStorageObject env).isSome)
  | some b => (b, some b)

/-- Embedding of `Util._getLocalStorageObject` (lines 92-98). -/
def getLocalStorageObject (flag : Option Bool) (env : StorageEnv) :
    Option StorageObj × Option Bool :=
  let r := canUseLocalStorage flag env
  if r.1 then (getVerifiedStorageObject env, r.2) else (none, r.2)

/-- Embedding of `Util.getStorage` (lines 158-174).  On a thrown `getItem`
the exception is caught, `_canUseLocalStorage` is set to `false`, a warning
is logged (logging is not modelled) and `null` is returned. -/
def getStorage (flag : Option Bool) (env : StorageEnv) (key : String) :
    Option String × Option Bool :=
  let r := getLocalStorageObject flag env
  match r.1 with
  | some st =>
    match st.getItem key with
    | Except.ok v => (v, r.2)
    | Except.error _ => (none, some false)
  | none => (none, r.2)

/-- Embedding of `Util.setStorage` (lines 183-200). -/
def setStorage (flag : Option Bool) (env : StorageEnv) (key val : String) :
    Bool × Option Bool :=
  let r := getLocalStorageObject flag env
  match r.1 with
  | some st =>
    match st.setItem key val with
    | Except.ok _ => (true, r.2)
    | Except.error _ => (false, some false)
  | none => (false, r.2)

/-- Embedding of `Util.removeStorage` (lines 208-225). -/
def removeStorage (flag : Option Bool) (env : StorageEnv) (key : String) :
    Bool × Option Bool :=
  let r := getLocalStorageObject flag env
  match r.1 with
  | some st =>
    match st.removeItem key with
    | Except.ok _ => (true, r.2)
    | Except.error _ => (false, some false)
  | none => (false, r.2)

/-! ## `UrlHelper.parseFullHost`

Embedding of the regular expression `/(\w*):\/\/(.[^/:]+)(\:[\d]+)?/i` applied
with `String.prototype.match` (leftmost match).  Backtracking analysis: `\w*`
is forced to the maximal word-character run, since the following literal `:`
is not a word character; `[^/:]+` is forced maximal, since the optional group
starts with `:` which `[^/:]` cannot consume and nothing follows the optional
group.  The scan then tries each later start position in turn. -/

/-- JavaScript `\w` character class. -/
def isWordChar (c : Char) : Bool :=
  c.isAlphanum || c == '_'

/-- Attempt of the `parseFullHost` regular expression anchored at the start of
`cs`; returns (group 1, group 2, group 3 or `""`). -/
def pfhMatchAt (cs : List Char) : Option (String × String × String) :=
  let w := cs.takeWhile isWordChar
  match cs.drop w.length with
  | ':' :: '/' :: '/' :: r1 =>
    match r1 with
    | c0 :: r2 =>
      let hostTail := r2.takeWhile (fun c => c != '/' && c != ':')
      if hostTail.isEmpty then none
      else
        let r3 := r2.drop hostTail.length
        let port : List Char :=
          match r3 with
          | ':' :: r4 =>
            let ds := r4.takeWhile Char.isDigit
            if ds.isEmpty then [] else ':' :: ds
          | _ => []
        some (w.asString, (c0 :: hostTail).asString, port.asString)
    | [] => none
  | _ => none

/-- Leftmost-match scan of the `parseFullHost` regular expression. -/
def pfhSearch (cs : List Char) : Option (String × String × String) :=
  match pfhMatchAt cs with
  | some m => some m
  | none =>
    match cs with
    | [] => none
    | _ :: t => pfhSearch t

/-- Embedding of `UrlHelper.parseFullHost` (`src/unnamed/part_000`,
lines 672-694); `none` models the `null` return. -/
def parseFullHost (url : String) (inclPort : Bool) : Option String :=
  if url == "" then none
  else
    match pfhSearch url.toList with
    | none => none
    | some g =>
      if (g.2.1).length > 0 then
        if inclPort then
          let protocol := jsToLower g.1
          let port0 := g.2.2
          let port :=
            if protocol == "http" && port0 == ":80" then ""
            else if protocol == "https" && port0 == ":443" then ""
            else port0
          some (g.2.1 ++ port)
        else some g.2.1
      else none

/-! ## Domain-glob matching in `CorrelationIdHelper`

The source builds `new RegExp(domain.toLowerCase().replace(/\./g, "\.")
.replace(/\*/g, ".*"))` and calls `.test(requestHost)`.  Note that the
replacement string `"\."` is just `"."`, so the first replace is a no-op and
a `.` in a domain glob remains the regular-expression any-character class.
The embedding covers domain strings built from ordinary characters plus `.`
and `*` (no other regular-expression metacharacters), which is the alphabet
of domain globs. -/

/-- Token of a compiled domain glob: a literal character, the `.` class, or
`.*` (any sequence). -/
inductive GTok where
  | lit (c : Char)
  | anyChar
  | anySeq
deriving DecidableEq

/-- Compilation performed by the two `replace` calls on the lowercased domain. -/
def compileGlob (domain : String) : List GTok :=
  (jsToLower domain).toList.map
    (fun c => if c == '*' then GTok.anySeq else if c == '.' then GTok.anyChar else GTok.lit c)

/-- Matches a compiled glob against a prefix of `xs` (the pattern may end
before the input does). -/
def gMatchHere : List GTok → List Char → Bool
  | [], _ => true
  | GTok.lit c :: ps, xs =>
    match xs with
    | [] => false
    | x :: t => x == c && gMatchHere ps t
  | GTok.anyChar :: ps, xs =>
    match xs with
    | [] => false
    | _ :: t => gMatchHere ps t
  | GTok.anySeq :: ps, xs => xs.tails.any (fun t => gMatchHere ps t)

/-- Unanchored `RegExp.prototype.test`: the pattern matches at some position. -/
def gSearch (p : List GTok) (cs : List Char) : Bool :=
  cs.tails.any (fun t => gMatchHere p t)

/-- Evaluation of `new RegExp(domain.toLowerCase().replace(/\./g, "\.").replace(/\*/g, ".*"))
.test(host)`. -/
def globRegexTest (domain host : String) : Bool :=
  gSearch (compileGlob domain) host.toList

/-! ## `CorrelationIdHelper.canIncludeCorrelationHeader` -/

/-- The fields of `ICorrelationConfig` read by `canIncludeCorrelationHeader`.
Boolean fields model truthiness of possibly-undefined flags; `none` models an
absent list.  Exclude patterns are arbitrary `RegExp` objects and are modelled
by their `test` behaviour on the request URL. -/
structure ICorrelationConfig where
  disableCorrelationHeaders : Bool
  correlationHeaderExcludePatterns : Option (List (String → Bool))
  enableCorsCorrelation : Bool
  correlationHeaderDomains : Option (List String)
  correlationHeaderExcludedDomains : Option (List String)

/-- A JavaScript value that is either a boolean or a string, as returned by
`canIncludeCorrelationHeader` (its final statement returns the string
`requestHost && requestHost.length > 0` evaluates to when `requestHost` is
falsy). -/
inductive JSValue where
  | bool (b : Bool)
  | str (s : String)
deriving DecidableEq

/-- The request host computed at lines 720-725: the lowercased `host` of the
DOM anchor produced by `UrlHelper.parseUrl(requestUrl)` (passed as
`anchorHost`, a browser anchor's `host` is always a string), re-parsed through
`parseFullHost` when it carries a default port. -/
def deriveRequestHost (requestUrl anchorHost : String) : String :=
  let requestHost := jsToLower anchorHost
  if requestHost != "" && (jsContains requestHost ":443" || jsContains requestHost ":80") then
    jsToLower ((parseFullHost requestUrl true).getD "")
  else requestHost

/-- Embedding of `CorrelationIdHelper.canIncludeCorrelationHeader`
(`src/unnamed/part_000`, lines 707-759).  `anchorHost` is the `host` property
the browser anchor reports for `requestUrl`; `currentHost` is the optional
second parameter. -/
def canIncludeCorrelationHeader (config : Option ICorrelationConfig)
    (requestUrl : String) (anchorHost : String) (currentHost : Option String) : JSValue :=
  if requestUrl == ""
      || (match config with
          | some c => c.disableCorrelationHeaders
          | none => false) then
    JSValue.bool false
  else if (match config with
      | some c =>
        match c.correlationHeaderExcludePatterns with
        | some ps => ps.any (fun p => p requestUrl)
        | none => false
      | none => false) then
    JSValue.bool false
  else
    let requestHost := deriveRequestHost requestUrl anchorHost
    if (match config with
        | none => true
        | some c => !c.enableCorsCorrelation) && !(currentHost == some requestHost) then
      JSValue.bool false
    else
      let afterIncluded :=
        match (match config with
            | some c => c.correlationHeaderExcludedDomains
            | none => none) with
        | none => JSValue.bool true
        | some es =>
          if es.length == 0 then JSValue.bool true
          else if es.any (fun d => globRegexTest d requestHost) then JSValue.bool false
          else if requestHost == "" then JSValue.str ""
          else JSValue.bool (decide (requestHost.length > 0))
      match (match config with
          | some c => c.correlationHeaderDomains
          | none => none) with
      | some ds =>
        if !(ds.any (fun d => globRegexTest d requestHost)) then JSValue.bool false
        else afterIncluded
      | none => afterIncluded

/-- Modelled from the spec: the glob semantics that claim C4 ascribes to the
domain lists, for comparison with the code's `globRegexTest` — a glob matches
the whole host, case-insensitively, with `*` matching any character sequence
and `.` matching only a literal dot (so it is an ordinary literal character).
-/
inductive SPat where
  | lit (c : Char)
  | star
deriving DecidableEq

/-- Compilation of a glob under the claimed (literal-dot) semantics. -/
def specCompileGlob (domain : String) : List SPat :=
  (jsToLower domain).toList.map (fun c => if c == '*' then SPat.star else SPat.lit c)

/-- Anchored matching of a claimed-semantics glob. -/
def specMatch : List SPat → List Char → Bool
  | [], xs => xs.isEmpty
  | SPat.lit c :: ps, xs =>
    match xs with
    | [] => false
    | x :: t => x == c && specMatch ps t
  | SPat.star :: ps, xs => xs.tails.any (fun t => specMatch ps t)

/-- Claimed-semantics glob match of a domain against a host. -/
def specGlobMatch (domain host : String) : Bool :=
  specMatch (specCompileGlob domain) (jsToLower host).toList

/-! ## `generateIntegrityFile.js`

Embedding of `getFilename` / `processPath` from
`src/tools/subResourceIntegrity/generateIntegrityFile.js`.  The two anchored
regular expressions are
`isVersioned = /^(.*\d)(\..*js)$/` (only its truthiness is used) and
`extractFilename = /^([^\d]*(\.\d{1,3}\.\d{1,3}\.\d{1,3}))(\..*js)$/` whose
groups 1-3 are used.  `crypto` hashing is abstracted as a parameter
`hash : algorithm → source → base64 digest`; the digests never influence
control flow.  The filesystem walk (`globby` + `readFileSync`) is modelled by
passing the list of (file name, contents) pairs. -/

/-- Matcher for `\..*js` anchored at the end of the input (the trailing part
of both regular expressions). -/
def tailFormatOk : List Char → Bool
  | '.' :: t => listIsSuffix ['j', 's'] t
  | _ => false

/-- Truthiness of `isVersioned.exec(inputFile)`: the input splits as
`(.*\d)(\..*js)`. -/
def isVersionedTest (cs : List Char) : Bool :=
  (List.range (cs.length + 1)).any (fun i =>
    (match (cs.take i).getLast? with
     | some c => c.isDigit
     | none => false) && tailFormatOk (cs.drop i))

/-- One backtracking alternative of `extractFilename`: match
`\.\d{n1}\.\d{n2}\.\d{n3}` at the start of `cs` followed by `\..*js` to the
end; returns (group 2, group 3). -/
def attemptVerCombo (cs : List Char) (n1 n2 n3 : Nat) : Option (List Char × List Char) :=
  match cs with
  | '.' :: t1 =>
    let d1 := t1.take n1
    if d1.length == n1 && d1.all Char.isDigit then
      match t1.drop n1 with
      | '.' :: t2 =>
        let d2 := t2.take n2
        if d2.length == n2 && d2.all Char.isDigit then
          match t2.drop n2 with
          | '.' :: t3 =>
            let d3 := t3.take n3
            if d3.length == n3 && d3.all Char.isDigit then
              let r := t3.drop n3
              if tailFormatOk r then
                some ('.' :: (d1 ++ '.' :: (d2 ++ '.' :: d3)), r)
              else none
            else none
          | _ => none
        else none
      | _ => none
    else none
  | _ => none

/-- Greedy backtracking order of the three `\d{1,3}` quantifiers. -/
def comboList : List (Nat × Nat × Nat) :=
  [3, 2, 1].flatMap (fun a => [3, 2, 1].flatMap (fun b => [3, 2, 1].map (fun c => (a, b, c))))

/-- Matches `(\.\d{1,3}\.\d{1,3}\.\d{1,3})(\..*js)$` at the start of `cs` in
greedy backtracking order. -/
def attemptVer (cs : List Char) : Option (List Char × List Char) :=
  comboList.findSome? (fun n => attemptVerCombo cs n.1 n.2.1 n.2.2)

/-- Evaluation of `extractFilename.exec(inputFile)`: the `[^\d]*` run is tried greedily
(longest first, per backtracking); returns (group 1, group 2, group 3). -/
def extractExec (cs : List Char) : Option (List Char × List Char × List Char) :=
  ((List.range ((cs.takeWhile (fun c => !c.isDigit)).length + 1)).reverse).findSome?
    (fun n =>
      (attemptVer (cs.drop n)).map (fun vr => ((cs.take n) ++ vr.1, vr.1, vr.2)))

/-- The path/filename split at the top of `getFilename` (lines 12-22). -/
def splitPath (inputFile : String) : String × String :=
  let pos0 := jsLastIndexOf inputFile "/"
  let pos := if pos0 == -1 then jsLastIndexOf inputFile "\\" else pos0
  if pos != -1 then (jsTake inputFile pos.toNat, jsDrop inputFile (pos.toNat + 1))
  else ("", inputFile)

/-- The `module`/`version`/`format`/`intFile` fields of the record returned by
`getFilename` when it yields an integrity entry. -/
structure IntInfo where
  module : String
  version : String
  format : String
  intFile : String
deriving DecidableEq

/-- Return value of `getFilename`: the bare file name, plus the integrity
fields when present (the source returns either all five fields or `{ name }`).
-/
structure FileNames where
  name : String
  intInfo : Option IntInfo
deriving DecidableEq

/-- Branch selection at the top of `getFilename` (`generateIntegrityFile.js`,
lines 24-60): the computed `match` array, as (carried `module`, `match[1]`,
`match[2]`, `match[3]`). -/
def getFilenameMatch (inputFile pv : String) : Option (String × String × String × String) :=
  let path := (splitPath inputFile).1
  let filename := (splitPath inputFile).2
  let verIdx0 := jsIndexOf filename ("." ++ pv)
  if verIdx0 != -1 then
    let verIdx := verIdx0.toNat + (pv.length + 1)
    some (jsTake filename verIdx, path ++ "/" ++ jsTake filename verIdx, pv,
      jsDrop filename (verIdx + 1))
  else if isVersionedTest inputFile.toList then
    match extractExec inputFile.toList with
    | some g => some (filename, g.1.asString, (g.2.1).asString, (g.2.2).asString)
    | none => none
  else if strEndsWith filename ".js" then
    let idx := jsIndexOf filename "."
    if idx != -1 then
      some (jsTake filename idx.toNat, path ++ "/" ++ jsTake filename idx.toNat, pv,
        jsDrop filename (idx.toNat + 1))
    else none
  else none

/-- Embedding of `getFilename` (`generateIntegrityFile.js`, lines 11-102):
branch selection via `getFilenameMatch`, then the `if (match)`
post-processing (lines 62-101). -/
def getFilename (inputFile pv : String) : FileNames :=
  let filename := (splitPath inputFile).2
  match getFilenameMatch inputFile pv with
  | none => { name := filename, intInfo := none }
  | some mm =>
    let version0 := mm.2.2.1
    if version0 != "" then
      let version := if jsStartsWith version0 "." then jsDrop version0 1 else version0
      if version == pv then
        let idx := jsLastIndexOf filename ("." ++ version)
        let module := if idx != -1 then jsTake filename idx.toNat else mm.1
        let format0 := mm.2.2.2
        let format := if jsStartsWith format0 "." then jsDrop format0 1 else format0
        { name := filename,
          intInfo := some { module := module, version := version, format := format,
                            intFile := mm.2.1 ++ ".integrity.json" } }
      else { name := filename, intInfo := none }
    else { name := filename, intInfo := none }

/-- The `hashes` object written for each file. -/
structure HashesR where
  sha256 : String
  sha384 : String
  sha512 : String
deriving DecidableEq

/-- The per-extension entry written under `ext["@" + format]`. -/
structure FileDetailsR where
  file : String
  type : String
  integrity : String
  hashes : HashesR
deriving DecidableEq

/-- One integrity JSON record cached under its `intFile` name. -/
structure IntegrityRecord where
  name : String
  version : Option String
  ext : List (String × FileDetailsR)
deriving DecidableEq

/-- The `integrityCache` object: a string-keyed map in insertion order. -/
abbrev IntegrityCache := List (String × IntegrityRecord)

/-- JavaScript object property read. -/
def assocGet {α : Type} (m : List (String × α)) (k : String) : Option α :=
  (m.find? (fun kv => kv.1 == k)).map (fun kv => kv.2)

/-- JavaScript object property write (update the entry holding the key, or
append a new key in insertion order; keys are unique). -/
def assocSet {α : Type} (m : List (String × α)) (k : String) (v : α) :
    List (String × α) :=
  match m with
  | [] => [(k, v)]
  | kv :: t => if kv.1 == k then (k, v) :: t else kv :: assocSet t k v

/-- Body of the `files.map` callback in `processPath`
(`generateIntegrityFile.js`, lines 106-145) for a single file; a thrown
`Error` is `Except.error` with its message. -/
def processFile (hash : String → String → String) (cache : IntegrityCache)
    (inputFile src version : String) : Except String IntegrityCache :=
  let names := getFilename inputFile version
  match names.intInfo with
  | none => Except.ok cache
  | some info =>
    let hash256 := hash "sha256" src
    let hash384 := hash "sha384" src
    let hash512 := hash "sha512" src
    let step : Except String IntegrityRecord :=
      match assocGet cache info.intFile with
      | none =>
        Except.ok { name := info.module,
                    version := if info.version != "" then some info.version else none,
                    ext := [] }
      | some rec0 =>
        if rec0.name != info.module then
          Except.error ("Error! - Module name [" ++ rec0.name
            ++ "] does not match expected [" ++ info.module ++ "]")
        else if info.version != "" && rec0.version != some info.version then
          Except.error ("Error! - Module version ["
            ++ (match rec0.version with
                | some v => v
                | none => "undefined")
            ++ "] does not match expected [" ++ info.version ++ "]")
        else Except.ok rec0
    match step with
    | Except.error e => Except.error e
    | Except.ok rec1 =>
      let details : FileDetailsR :=
        { file := names.name,
          type := "text/javascript; charset=utf-8",
          integrity := "sha256-" ++ hash256 ++ " sha384-" ++ hash384
            ++ " sha512-" ++ hash512,
          hashes := { sha256 := hash256, sha384 := hash384, sha512 := hash512 } }
      Except.ok (assocSet cache info.intFile
        { rec1 with ext := assocSet rec1.ext ("@" ++ info.format) details })

/-- Embedding of `processPath` (`generateIntegrityFile.js`, lines 104-146):
the `files.map` loop over the globbed files; a throw inside the callback
aborts the run at that point. -/
def processPath (hash : String → String → String) (cache : IntegrityCache)
    (files : List (String × String)) (version : String) : Except String IntegrityCache :=
  match files with
  | [] => Except.ok cache
  | (f, src) :: rest =>
    match processFile hash cache f src version with
    | Except.error e => Except.error e
    | Except.ok c => processPath hash c rest version

/-! ## Substring predicates used to state the user-agent claim -/

/-- Proposition that `t` occurs as a contiguous substring of `s`. -/
def ContainsSub (s t : String) : Prop :=
  ∃ p q : List Char, p ++ (t.toList ++ q) = s.toList

/-- Proposition that `s` ends with `t`. -/
def EndsWithSub (s t : String) : Prop :=
  ∃ p : List Char, p ++ t.toList = s.toList

/-- Concrete storage behaviour used to witness the exception claims: the
probe key `"uid0"` works, every other key throws. -/
def throwingStorage : StorageObj :=
  { getItem := fun n => if n == "uid0" then Except.ok (some "uid0") else Except.error (),
    setItem := fun n _ => if n == "uid0" then Except.ok () else Except.error (),
    removeItem := fun n => if n == "uid0" then Except.ok () else Except.error () }

/-- Environment whose verified local storage is `throwingStorage`. -/
def throwingEnv : StorageEnv :=
  { hasGlobal := true, storage := some throwingStorage, uid := "uid0" }

/-! ## Helper lemmas -/

theorem isPrefixOf_iff_exists :
    ∀ (l m : List Char), l.isPrefixOf m = true ↔ ∃ q, l ++ q = m := by
  intro l
  induction l with
  | nil => intro m; simp [List.isPrefixOf]
  | cons a t ih =>
    intro m
    cases m with
    | nil => simp [List.isPrefixOf]
    | cons b u =>
      simp only [List.isPrefixOf, Bool.and_eq_true, beq_iff_eq, List.cons_append,
        List.cons.injEq, ih u]
      constructor
      · rintro ⟨h1, q, h2⟩
        exact ⟨q, h1, h2⟩
      · rintro ⟨q, h1, h2⟩
        exact ⟨h1, q, h2⟩

theorem listIndexOfAux_found (needle : List Char) :
    ∀ (hay : List Char) (i : Nat),
      (listIndexOfAux needle hay i != -1) = true ↔ ∃ p q, p ++ (needle ++ q) = hay := by
  intro hay
  induction hay with
  | nil =>
    intro i
    rw [listIndexOfAux]
    by_cases h : needle.isPrefixOf ([] : List Char) = true
    · rcases (isPrefixOf_iff_exists needle []).mp h with ⟨q, hq⟩
      rcases List.append_eq_nil.mp hq with ⟨hn, hq2⟩
      subst hn
      subst hq2
      simp only [if_pos h]
      constructor
      · intro _
        exact ⟨[], [], rfl⟩
      · intro _
        simp only [bne_iff_ne, ne_eq]
        omega
    · simp only [if_neg h]
      constructor
      · intro hfalse
        simp at hfalse
      · rintro ⟨p, q, hpq⟩
        rcases List.append_eq_nil.mp hpq with ⟨_, hr⟩
        rcases List.append_eq_nil.mp hr with ⟨hn, _⟩
        subst hn
        exact absurd (by simp [List.isPrefixOf]) h
  | cons b u ih =>
    intro i
    rw [listIndexOfAux]
    by_cases h : needle.isPrefixOf (b :: u) = true
    · rcases (isPrefixOf_iff_exists needle (b :: u)).mp h with ⟨q, hq⟩
      simp only [if_pos h]
      constructor
      · intro _
        exact ⟨[], q, by simpa using hq⟩
      · intro _
        simp only [bne_iff_ne, ne_eq]
        omega
    · simp only [if_neg h]
      rw [ih (i + 1)]
      constructor
      · rintro ⟨p, q, hpq⟩
        exact ⟨b :: p, q, by simp [hpq]⟩
      · rintro ⟨p, q, hpq⟩
        cases p with
        | nil =>
          exact absurd ((isPrefixOf_iff_exists needle (b :: u)).mpr ⟨q, by simpa using hpq⟩) h
        | cons c p' =>
          simp only [List.cons_append, List.cons.injEq] at hpq
          exact ⟨p', q, hpq.2⟩

theorem jsContains_iff (s t : String) : jsContains s t = true ↔ ContainsSub s t := by
  unfold jsContains jsIndexOf ContainsSub
  exact listIndexOfAux_found t.toList s.toList 0

theorem listIsSuffix_iff (t s : List Char) :
    listIsSuffix t s = true ↔ ∃ p, p ++ t = s := by
  unfold listIsSuffix
  constructor
  · intro h
    have ht : t = s.drop (s.length - t.length) := eq_of_beq h
    refine ⟨s.take (s.length - t.length), ?_⟩
    have hsplit := List.take_append_drop (s.length - t.length) s
    rw [← ht] at hsplit
    exact hsplit
  · rintro ⟨p, rfl⟩
    have hlen : (p ++ t).length - t.length = p.length := by
      simp
    rw [hlen, List.drop_left]
    simp

theorem strEndsWith_iff (s t : String) : strEndsWith s t = true ↔ EndsWithSub s t := by
  unfold strEndsWith EndsWithSub
  exact listIsSuffix_iff t.toList s.toList

theorem assocGet_assocSet_self {α : Type} (m : List (String × α)) (k : String) (v : α) :
    assocGet (assocSet m k v) k = some v := by
  induction m with
  | nil => simp [assocGet, assocSet, List.find?]
  | cons a t ih =>
    rw [assocSet]
    split
    · simp [assocGet, List.find?]
    · rename_i hne
      have hpa : (a.1 == k) = false := by
        cases hcc : (a.1 == k) with
        | false => rfl
        | true => exact absurd hcc hne
      rw [assocGet] at ih ⊢
      rw [List.find?]
      simp only [hpa]
      exact ih

theorem findSome?_eq_some_exists {α β : Type} (f : α → Option β) :
    ∀ (l : List α) (b : β), List.findSome? f l = some b → ∃ a, f a = some b := by
  intro l
  induction l with
  | nil =>
    intro b h
    simp [List.findSome?] at h
  | cons a t ih =>
    intro b h
    cases hfa : f a with
    | some b' =>
      simp only [List.findSome?, hfa] at h
      exact ⟨a, by rw [hfa, h]⟩
    | none =>
      simp only [List.findSome?, hfa] at h
      exact ih b h

theorem attemptVerCombo_shape (cs : List Char) (n1 n2 n3 : Nat)
    (vr : List Char × List Char) (h : attemptVerCombo cs n1 n2 n3 = some vr) :
    ∃ l, vr.1 = '.' :: l ∧ l ≠ [] := by
  unfold attemptVerCombo at h
  dsimp only at h
  repeat' split at h
  all_goals try exact Option.noConfusion h
  rcases Option.some_inj.mp h with hvr
  subst hvr
  exact ⟨_, rfl, by simp⟩

theorem attemptVer_shape (cs : List Char) (vr : List Char × List Char)
    (h : attemptVer cs = some vr) : ∃ l, vr.1 = '.' :: l ∧ l ≠ [] := by
  unfold attemptVer at h
  rcases findSome?_eq_some_exists _ comboList vr h with ⟨n, hn⟩
  exact attemptVerCombo_shape cs n.1 n.2.1 n.2.2 vr hn

theorem extractExec_g2_shape (cs : List Char) (g : List Char × List Char × List Char)
    (h : extractExec cs = some g) : ∃ l, g.2.1 = '.' :: l ∧ l ≠ [] := by
  unfold extractExec at h
  rcases findSome?_eq_some_exists _ _ g h with ⟨n, hn⟩
  rcases Option.map_eq_some'.mp hn with ⟨vr, hvr, hmap⟩
  rcases attemptVer_shape _ vr hvr with ⟨l, hl, hlne⟩
  refine ⟨l, ?_, hlne⟩
  rw [← hmap]
  exact hl

theorem asString_ne_empty (l : List Char) (h : l ≠ []) : l.asString ≠ "" := by
  intro he
  apply h
  have h2 : l.asString.toList = ("" : String).toList := by rw [he]
  exact h2

theorem jsDrop_one_ne_self (s : String) (h : jsStartsWith s "." = true) :
    jsDrop s 1 ≠ s := by
  intro he
  have h1 : s.toList.drop 1 = s.toList := congrArg String.toList he
  rcases (isPrefixOf_iff_exists _ _).mp h with ⟨q, hq⟩
  rw [← hq] at h1
  have h2 := congrArg List.length h1
  simp at h2

theorem getFilenameMatch_version (f pv : String) (mm : String × String × String × String)
    (h : getFilenameMatch f pv = some mm) :
    mm.2.2.1 = pv ∨ ∃ l, mm.2.2.1 = ('.' :: l).asString ∧ l ≠ [] := by
  unfold getFilenameMatch at h
  dsimp only at h
  split at h
  · rcases Option.some_inj.mp h with hmm
    subst hmm
    exact Or.inl rfl
  · split at h
    · split at h
      · rename_i g hg
        rcases Option.some_inj.mp h with hmm
        subst hmm
        rcases extractExec_g2_shape _ g hg with ⟨l, hl, hlne⟩
        exact Or.inr ⟨l, by rw [hl], hlne⟩
      · simp at h
    · split at h
      · split at h
        · rcases Option.some_inj.mp h with hmm
          subst hmm
          exact Or.inl rfl
        · simp at h
      · simp at h

theorem getFilename_name (f pv : String) :
    (getFilename f pv).name = (splitPath f).2 := by
  unfold getFilename
  cases hm : getFilenameMatch f pv with
  | none => rfl
  | some mm =>
    dsimp only
    repeat' split
    all_goals rfl

theorem getFilename_intInfo_cases (f pv : String) (info : IntInfo)
    (h : (getFilename f pv).intInfo = some info) :
    info.version = pv ∧ info.version ≠ "" := by
  unfold getFilename at h
  cases hm : getFilenameMatch f pv with
  | none =>
    rw [hm] at h
    simp at h
  | some mm =>
    rw [hm] at h
    dsimp only at h
    by_cases hv0 : (mm.2.2.1 != "") = true
    · rw [if_pos hv0] at h
      by_cases hvp :
          ((if jsStartsWith mm.2.2.1 "." = true then jsDrop mm.2.2.1 1 else mm.2.2.1) == pv)
            = true
      · rw [if_pos hvp] at h
        dsimp only at h
        rcases Option.some_inj.mp h with hinfo
        subst hinfo
        constructor
        · exact eq_of_beq hvp
        · show (if jsStartsWith mm.2.2.1 "." = true then jsDrop mm.2.2.1 1 else mm.2.2.1) ≠ ""
          by_cases hsw : jsStartsWith mm.2.2.1 "." = true
          · rw [if_pos hsw]
            rw [if_pos hsw] at hvp
            rcases getFilenameMatch_version f pv mm hm with hcase | ⟨l, hleq, hlne⟩
            · rw [hcase] at hsw hvp ⊢
              exact absurd (eq_of_beq hvp) (jsDrop_one_ne_self pv hsw)
            · rw [hleq]
              have hred : jsDrop (('.' :: l).asString) 1 = l.asString := rfl
              rw [hred]
              exact asString_ne_empty l hlne
          · rw [if_neg hsw]
            intro hemp
            rw [hemp] at hv0
            simp at hv0
      · rw [if_neg hvp] at h
        simp at h
    · rw [if_neg hv0] at h
      simp at h

/-! ## Claims C8, C3 and C5 -/

/-- Claim C8: `getFilename` returns a record carrying an `intFile` field (and
hence triggers hashing and an integrity entry) only with its `version` equal
to `packageVersion`; whenever no integrity fields are produced, the result
carries only the bare file name. -/
theorem claim_C8_version_gate (f pv : String) :
    (∀ info, (getFilename f pv).intInfo = some info → info.version = pv) ∧
    ((getFilename f pv).intInfo = none →
      getFilename f pv = { name := (splitPath f).2, intInfo := none }) := by
  constructor
  · intro info h
    exact (getFilename_intInfo_cases f pv info h).1
  · intro h
    have hn := getFilename_name f pv
    rcases hgf : getFilename f pv with ⟨nm, ii⟩
    rw [hgf] at h hn
    dsimp at h hn
    rw [h, hn]

/-- Witness for C8: a matching file name records the package version, and a
file whose parsed version differs from the package version yields only the
bare name. -/
theorem claim_C8_version_gate_witness :
    ({ module := "ai", version := "1.2.3", format := "js",
       intFile := "/ai.1.2.3.integrity.json" } : IntInfo).version = "1.2.3" ∧
    getFilename "ai.1.2.3.js" "9.9.9" = { name := "ai.1.2.3.js", intInfo := none } := by
  constructor
  · exact (claim_C8_version_gate "ai.1.2.3.js" "1.2.3").1
      { module := "ai", version := "1.2.3", format := "js",
        intFile := "/ai.1.2.3.integrity.json" } rfl
  · have h := (claim_C8_version_gate "ai.1.2.3.js" "9.9.9").2 rfl
    exact h.trans (by decide)

/-- Claim C3: during a build run, when a processed file maps to the integrity
file of an earlier file but with a different module name, or with a different
version, the `processPath` run throws an `Error` synchronously at that point
(modelled as `Except.error` aborting the `files.map` fold). -/
theorem claim_C3_mismatch_throws (hash : String → String → String)
    (cache : IntegrityCache) (f src version : String) (rest : List (String × String))
    (info : IntInfo) (rec0 : IntegrityRecord)
    (h1 : (getFilename f version).intInfo = some info)
    (h2 : assocGet cache info.intFile = some rec0) :
    (rec0.name ≠ info.module →
      ∃ e, processFile hash cache f src version = Except.error e ∧
        processPath hash cache ((f, src) :: rest) version = Except.error e) ∧
    (rec0.name = info.module → rec0.version ≠ some info.version →
      ∃ e, processFile hash cache f src version = Except.error e ∧
        processPath hash cache ((f, src) :: rest) version = Except.error e) := by
  have hvne : info.version ≠ "" := (getFilename_intInfo_cases f version info h1).2
  constructor
  · intro hname
    have hnb : (rec0.name != info.module) = true := by
      simp [bne_iff_ne, hname]
    have he : processFile hash cache f src version = Except.error
        ("Error! - Module name [" ++ rec0.name ++ "] does not match expected ["
          ++ info.module ++ "]") := by
      unfold processFile
      dsimp only
      rw [h1]
      dsimp only
      rw [h2]
      dsimp only
      rw [if_pos hnb]
    exact ⟨_, he, by unfold processPath; rw [he]⟩
  · intro hname hver
    have hnb : ¬((rec0.name != info.module) = true) := by
      simp [bne, hname]
    have hvb : (info.version != "") = true := by
      simp [bne_iff_ne, hvne]
    have hv2 : (info.version != "" && rec0.version != some info.version) = true := by
      simp [bne_iff_ne, hvne, hver]
    have he : processFile hash cache f src version = Except.error
        ("Error! - Module version ["
          ++ (match rec0.version with
              | some v => v
              | none => "undefined")
          ++ "] does not match expected [" ++ info.version ++ "]") := by
      unfold processFile
      dsimp only
      rw [h1]
      dsimp only
      rw [h2]
      dsimp only
      rw [if_neg hnb, if_pos hv2]
    exact ⟨_, he, by unfold processPath; rw [he]⟩

/-- Witness for C3: the cache already holds `/ai.1.2.3.integrity.json` for
module `other`, so processing `ai.1.2.3.js` (module `ai`) aborts the run with
the module-name error. -/
theorem claim_C3_mismatch_throws_witness :
    processPath (fun _ _ => "h")
      [("/ai.1.2.3.integrity.json", { name := "other", version := some "1.2.3", ext := [] })]
      [("ai.1.2.3.js", "body")] "1.2.3"
      = Except.error "Error! - Module name [other] does not match expected [ai]" := by
  rcases (claim_C3_mismatch_throws (fun _ _ => "h")
      [("/ai.1.2.3.integrity.json", { name := "other", version := some "1.2.3", ext := [] })]
      "ai.1.2.3.js" "body" "1.2.3" []
      { module := "ai", version := "1.2.3", format := "js",
        intFile := "/ai.1.2.3.integrity.json" }
      { name := "other", version := some "1.2.3", ext := [] }
      rfl rfl).1 (by decide) with ⟨e, he1, he2⟩
  have h0 : processFile (fun _ _ => "h")
      [("/ai.1.2.3.integrity.json", { name := "other", version := some "1.2.3", ext := [] })]
      "ai.1.2.3.js" "body" "1.2.3"
      = Except.error "Error! - Module name [other] does not match expected [ai]" := rfl
  rw [he1] at h0
  rcases Except.error.inj h0 with he
  rw [← he]
  exact he2

/-- Claim C5: for every processed bundle file that yields an integrity entry,
the resulting cached integrity record carries the module name, the version,
and under the key `"@" + format` an entry with the three base64 digests and
the combined `integrity` attribute string
`sha256-<h1> sha384-<h2> sha512-<h3>`. -/
theorem claim_C5_record_shape (hash : String → String → String)
    (cache : IntegrityCache) (f src version : String) (info : IntInfo)
    (cache2 : IntegrityCache)
    (h1 : (getFilename f version).intInfo = some info)
    (h2 : processFile hash cache f src version = Except.ok cache2) :
    ∃ rec1, assocGet cache2 info.intFile = some rec1 ∧
      rec1.name = info.module ∧
      rec1.version = some info.version ∧
      assocGet rec1.ext ("@" ++ info.format) =
        some { file := (getFilename f version).name,
               type := "text/javascript; charset=utf-8",
               integrity := "sha256-" ++ hash "sha256" src ++ " sha384-" ++ hash "sha384" src
                 ++ " sha512-" ++ hash "sha512" src,
               hashes := { sha256 := hash "sha256" src, sha384 := hash "sha384" src,
                           sha512 := hash "sha512" src } } := by
  have hvne : info.version ≠ "" := (getFilename_intInfo_cases f version info h1).2
  have hvb : (info.version != "") = true := by
    simp [bne_iff_ne, hvne]
  unfold processFile at h2
  dsimp only at h2
  rw [h1] at h2
  dsimp only at h2
  cases hc : assocGet cache info.intFile with
  | none =>
    rw [hc] at h2
    dsimp only at h2
    rw [if_pos hvb] at h2
    rcases Except.ok.inj h2 with hcc
    subst hcc
    refine ⟨_, assocGet_assocSet_self _ _ _, rfl, rfl, ?_⟩
    exact assocGet_assocSet_self _ _ _
  | some rec0 =>
    rw [hc] at h2
    dsimp only at h2
    by_cases hnb : (rec0.name != info.module) = true
    · rw [if_pos hnb] at h2
      exact Except.noConfusion h2
    · rw [if_neg hnb] at h2
      by_cases hv2 : (info.version != "" && rec0.version != some info.version) = true
      · rw [if_pos hv2] at h2
        exact Except.noConfusion h2
      · rw [if_neg hv2] at h2
        dsimp only at h2
        rcases Except.ok.inj h2 with hcc
        subst hcc
        have hname : rec0.name = info.module := by
          have h4 := (Bool.not_eq_true _).mp hnb
          simpa [bne_iff_ne] using h4
        have hver : rec0.version = some info.version := by
          have h3 := (Bool.not_eq_true _).mp hv2
          rw [Bool.and_eq_false_iff] at h3
          rcases h3 with h3 | h3
          · rw [hvb] at h3
            exact absurd h3 (by simp)
          · simpa [bne_iff_ne] using h3
        refine ⟨_, assocGet_assocSet_self _ _ _, hname, hver, ?_⟩
        exact assocGet_assocSet_self _ _ _

/-- Witness for C5: processing `ai.1.2.3.js` from an empty cache produces the
record with module `ai`, version `1.2.3` and the `@js` hash entry. -/
theorem claim_C5_record_shape_witness :
    ∃ rec1,
      assocGet (α := IntegrityRecord)
        [("/ai.1.2.3.integrity.json",
          { name := "ai", version := some "1.2.3",
            ext := [("@js",
              { file := "ai.1.2.3.js", type := "text/javascript; charset=utf-8",
                integrity := "sha256-h sha384-h sha512-h",
                hashes := { sha256 := "h", sha384 := "h", sha512 := "h" } })] })]
        "/ai.1.2.3.integrity.json" = some rec1 ∧
      rec1.name = "ai" ∧
      rec1.version = some "1.2.3" ∧
      assocGet rec1.ext "@js" =
        some { file := "ai.1.2.3.js", type := "text/javascript; charset=utf-8",
               integrity := "sha256-h sha384-h sha512-h",
               hashes := { sha256 := "h", sha384 := "h", sha512 := "h" } } := by
  have h := claim_C5_record_shape (fun _ _ => "h") [] "ai.1.2.3.js" "body" "1.2.3"
    { module := "ai", version := "1.2.3", format := "js",
      intFile := "/ai.1.2.3.integrity.json" }
    [("/ai.1.2.3.integrity.json",
      { name := "ai", version := some "1.2.3",
        ext := [("@js",
          { file := "ai.1.2.3.js", type := "text/javascript; charset=utf-8",
            integrity := "sha256-h sha384-h sha512-h",
            hashes := { sha256 := "h", sha384 := "h", sha512 := "h" } })] })]
    rfl rfl
  exact h

/-! ## Claims C1 and C4 -/

/-- Claim C1 (amended): for every configuration, request URL, anchor host and
current host, `canIncludeCorrelationHeader` returns `true`, `false`, or the
empty string — the final statement `return requestHost && requestHost.length
> 0` yields the falsy empty string rather than a boolean when the parsed
request host is empty. -/
theorem claim_C1_result_shape (config : Option ICorrelationConfig)
    (requestUrl anchorHost : String) (currentHost : Option String) :
    canIncludeCorrelationHeader config requestUrl anchorHost currentHost = JSValue.bool true ∨
    canIncludeCorrelationHeader config requestUrl anchorHost currentHost = JSValue.bool false ∨
    canIncludeCorrelationHeader config requestUrl anchorHost currentHost = JSValue.str "" := by
  simp only [canIncludeCorrelationHeader]
  repeat' split
  all_goals try exact Or.inl rfl
  all_goals try exact Or.inr (Or.inl rfl)
  all_goals try exact Or.inr (Or.inr rfl)
  all_goals by_cases hlen : ((deriveRequestHost requestUrl anchorHost).length > 0) <;>
    simp [hlen]

/-- Counterexample for C1 as stated: with CORS correlation enabled, a
nonempty excluded-domain list that does not match, and a request URL whose
browser anchor host is empty (as for `about:blank`), the function returns the
empty string — a value that is neither `true` nor `false`. -/
theorem claim_C1_counterexample :
    canIncludeCorrelationHeader
        (some { disableCorrelationHeaders := false,
                correlationHeaderExcludePatterns := none,
                enableCorsCorrelation := true,
                correlationHeaderDomains := none,
                correlationHeaderExcludedDomains := some ["example.com"] })
        "about:blank" "" none = JSValue.str "" ∧
    JSValue.str "" ≠ JSValue.bool true ∧ JSValue.str "" ≠ JSValue.bool false :=
  ⟨rfl, by decide, by decide⟩

/-- Claim C4 (amended): when `correlationHeaderDomains` is provided the
function returns `false` unless some domain glob matches the parsed request
host, and any match in `correlationHeaderExcludedDomains` forces `false` —
where a glob is compiled case-insensitively into an unanchored regular
expression in which `*` matches any character sequence and `.` matches any
single character (the source's dot-escaping `replace` is a no-op). -/
theorem claim_C4_domain_filters (cfg : ICorrelationConfig) (requestUrl anchorHost : String)
    (currentHost : Option String) :
    (∀ ds, cfg.correlationHeaderDomains = some ds →
      ds.any (fun d => globRegexTest d (deriveRequestHost requestUrl anchorHost)) = false →
      canIncludeCorrelationHeader (some cfg) requestUrl anchorHost currentHost
        = JSValue.bool false) ∧
    (∀ es, cfg.correlationHeaderExcludedDomains = some es →
      es.any (fun d => globRegexTest d (deriveRequestHost requestUrl anchorHost)) = true →
      canIncludeCorrelationHeader (some cfg) requestUrl anchorHost currentHost
        = JSValue.bool false) := by
  constructor
  · intro ds hds hno
    simp only [canIncludeCorrelationHeader]
    split
    · rfl
    split
    · rfl
    split
    · rfl
    simp [hds, hno]
  · intro es hes hyes
    have hne : es ≠ [] := by
      intro he
      subst he
      simp at hyes
    have hlen : (es.length == 0) = false := by
      cases es with
      | nil => exact absurd rfl hne
      | cons a t => rfl
    simp only [canIncludeCorrelationHeader]
    split
    · rfl
    split
    · rfl
    split
    · rfl
    split
    · split
      · rfl
      · simp [hes, hlen, hyes]
    · simp [hes, hlen, hyes]

/-- Witness for C4 (amended), at concrete inputs: a provided domain list with
no matching glob forces `false`, and a matching excluded glob forces `false`.
-/
theorem claim_C4_domain_filters_witness :
    canIncludeCorrelationHeader
        (some { disableCorrelationHeaders := false,
                correlationHeaderExcludePatterns := none,
                enableCorsCorrelation := false,
                correlationHeaderDomains := some ["nomatch.example"],
                correlationHeaderExcludedDomains := none })
        "http://x.io" "x.io" (some "x.io") = JSValue.bool false ∧
    canIncludeCorrelationHeader
        (some { disableCorrelationHeaders := false,
                correlationHeaderExcludePatterns := none,
                enableCorsCorrelation := false,
                correlationHeaderDomains := none,
                correlationHeaderExcludedDomains := some ["x.io"] })
        "http://x.io" "x.io" (some "x.io") = JSValue.bool false := by
  constructor
  · exact (claim_C4_domain_filters
      { disableCorrelationHeaders := false,
        correlationHeaderExcludePatterns := none,
        enableCorsCorrelation := false,
        correlationHeaderDomains := some ["nomatch.example"],
        correlationHeaderExcludedDomains := none }
      "http://x.io" "x.io" (some "x.io")).1 ["nomatch.example"] rfl (by decide)
  · exact (claim_C4_domain_filters
      { disableCorrelationHeaders := false,
        correlationHeaderExcludePatterns := none,
        enableCorsCorrelation := false,
        correlationHeaderDomains := none,
        correlationHeaderExcludedDomains := some ["x.io"] }
      "http://x.io" "x.io" (some "x.io")).2 ["x.io"] rfl (by decide)

/-- Counterexample for C4 as stated: the glob `"a.com"` does not match the
host `"axcom"` under the claimed literal-dot semantics, yet with
`correlationHeaderDomains = ["a.com"]` the function returns `true` for that
host, because the compiled pattern leaves `.` as the any-character class. -/
theorem claim_C4_counterexample :
    specGlobMatch "a.com" "axcom" = false ∧
    canIncludeCorrelationHeader
        (some { disableCorrelationHeaders := false,
                correlationHeaderExcludePatterns := none,
                enableCorsCorrelation := false,
                correlationHeaderDomains := some ["a.com"],
                correlationHeaderExcludedDomains := none })
        "http://axcom" "axcom" (some "axcom") = JSValue.bool true :=
  ⟨by decide, rfl⟩

/-! ## Claim C2 -/

/-- Claim C2: if the underlying browser storage object throws during
`getItem`, `setItem` or `removeItem`, the exception does not propagate:
`Util.getStorage` returns `null`, `Util.setStorage` and `Util.removeStorage`
return `false`, and the `_canUseLocalStorage` capability flag is downgraded to
`false`, so `Util.canUseLocalStorage()` subsequently returns `false`. -/
theorem claim_C2_storage_exceptions (flag : Option Bool) (env : StorageEnv)
    (key val : String) (st : StorageObj)
    (hst : (getLocalStorageObject flag env).1 = some st) :
    (st.getItem key = Except.error () → getStorage flag env key = (none, some false)) ∧
    (st.setItem key val = Except.error () → setStorage flag env key val = (false, some false)) ∧
    (st.removeItem key = Except.error () → removeStorage flag env key = (false, some false)) ∧
    (canUseLocalStorage (some false) env).1 = false := by
  refine ⟨?_, ?_, ?_, rfl⟩
  · intro h
    simp only [getStorage, hst, h]
  · intro h
    simp only [setStorage, hst, h]
  · intro h
    simp only [removeStorage, hst, h]

/-- Witness for C2: with a verified storage object that throws on the key
`"k"`, the three operations return `null`/`false`/`false` and the capability
flag ends up `false`. -/
theorem claim_C2_storage_exceptions_witness :
    getStorage (some true) throwingEnv "k" = (none, some false) ∧
    setStorage (some true) throwingEnv "k" "v" = (false, some false) ∧
    removeStorage (some true) throwingEnv "k" = (false, some false) ∧
    (canUseLocalStorage (some false) throwingEnv).1 = false := by
  have h := claim_C2_storage_exceptions (some true) throwingEnv "k" "v" throwingStorage rfl
  exact ⟨h.1 rfl, h.2.1 rfl, h.2.2.1 rfl, h.2.2.2⟩

/-! ## Claim C6 -/

/-- Claim C6: `Util.disallowsSameSiteNone(userAgent)` returns `true` exactly
when the user-agent string contains `"CPU iPhone OS 12"` or
`"iPad; CPU OS 12"`; or contains `"Macintosh; Intel Mac OS X 10_14"` together
with both `"Version/"` and `"Safari"`; or contains
`"Macintosh; Intel Mac OS X 10_14"` and ends with
`"AppleWebKit/605.1.15 (KHTML, like Gecko)"`; or contains `"Chrome/5"` or
`"Chrome/6"`; or contains `"UnrealEngine"` but not `"Chrome"`; or contains
`"UCBrowser/12"` or `"UCBrowser/11"`.  Otherwise it returns `false`. -/
theorem claim_C6_disallows_iff (ua : String) :
    disallowsSameSiteNone (JSArg.str ua) = true ↔
      ((ContainsSub ua "CPU iPhone OS 12" ∨ ContainsSub ua "iPad; CPU OS 12") ∨
       (ContainsSub ua "Macintosh; Intel Mac OS X 10_14" ∧ ContainsSub ua "Version/" ∧
         ContainsSub ua "Safari") ∨
       (ContainsSub ua "Macintosh; Intel Mac OS X 10_14" ∧
         EndsWithSub ua "AppleWebKit/605.1.15 (KHTML, like Gecko)") ∨
       (ContainsSub ua "Chrome/5" ∨ ContainsSub ua "Chrome/6") ∨
       (ContainsSub ua "UnrealEngine" ∧ ¬ ContainsSub ua "Chrome") ∨
       (ContainsSub ua "UCBrowser/12" ∨ ContainsSub ua "UCBrowser/11")) := by
  have hb : disallowsSameSiteNone (JSArg.str ua) =
      ((jsContains ua "CPU iPhone OS 12" || jsContains ua "iPad; CPU OS 12") ||
       (jsContains ua "Macintosh; Intel Mac OS X 10_14" && jsContains ua "Version/"
         && jsContains ua "Safari") ||
       (jsContains ua "Macintosh; Intel Mac OS X 10_14"
         && strEndsWith ua "AppleWebKit/605.1.15 (KHTML, like Gecko)") ||
       (jsContains ua "Chrome/5" || jsContains ua "Chrome/6") ||
       (jsContains ua "UnrealEngine" && !jsContains ua "Chrome") ||
       (jsContains ua "UCBrowser/12" || jsContains ua "UCBrowser/11")) := by
    simp only [disallowsSameSiteNone]
    cases h1 : (jsContains ua "CPU iPhone OS 12" || jsContains ua "iPad; CPU OS 12") <;>
      cases h2 : (jsContains ua "Macintosh; Intel Mac OS X 10_14" && jsContains ua "Version/"
        && jsContains ua "Safari") <;>
      cases h3 : (jsContains ua "Macintosh; Intel Mac OS X 10_14"
        && strEndsWith ua "AppleWebKit/605.1.15 (KHTML, like Gecko)") <;>
      cases h4 : (jsContains ua "Chrome/5" || jsContains ua "Chrome/6") <;>
      cases h5 : (jsContains ua "UnrealEngine" && !jsContains ua "Chrome") <;>
      cases h6 : (jsContains ua "UCBrowser/12" || jsContains ua "UCBrowser/11") <;>
      simp [h1, h2, h3, h4, h5, h6]
  rw [hb]
  simp only [Bool.or_eq_true, Bool.and_eq_true, Bool.not_eq_true', Bool.eq_false_iff,
    ne_eq, jsContains_iff, strEndsWith_iff]
  tauto

/-! ## Claims C7, C9, C10 -/

/-- Claim C7: the pure decision helpers are deterministic — two runs of
`disallowsSameSiteNone`, `getCorrelationContextValue` or
`dateTimeUtilsDuration` on equal arguments return equal results.  In this
embedding the three source functions read and write no static state, so they
are pure Lean functions and leave all modelled program state unchanged. -/
theorem claim_C7_pure_deterministic (ua ua' : JSArg) (rh rh' key key' : String)
    (s s' e e' : Option Int) (h1 : ua = ua') (h2 : rh = rh') (h3 : key = key')
    (h4 : s = s') (h5 : e = e') :
    disallowsSameSiteNone ua = disallowsSameSiteNone ua' ∧
    getCorrelationContextValue rh key = getCorrelationContextValue rh' key' ∧
    dateTimeUtilsDuration s e = dateTimeUtilsDuration s' e' := by
  subst h1; subst h2; subst h3; subst h4; subst h5
  exact ⟨rfl, rfl, rfl⟩

/-- Witness for C7 at concrete equal arguments. -/
theorem claim_C7_pure_deterministic_witness :
    disallowsSameSiteNone (JSArg.str "Chrome/52") = disallowsSameSiteNone (JSArg.str "Chrome/52") ∧
    getCorrelationContextValue "appId=cid-v1:abc" "appId"
      = getCorrelationContextValue "appId=cid-v1:abc" "appId" ∧
    dateTimeUtilsDuration (some 1) (some 7) = dateTimeUtilsDuration (some 1) (some 7) :=
  claim_C7_pure_deterministic (JSArg.str "Chrome/52") (JSArg.str "Chrome/52")
    "appId=cid-v1:abc" "appId=cid-v1:abc" "appId" "appId"
    (some 1) (some 1) (some 7) (some 7) rfl rfl rfl rfl rfl

/-- Claim C9: for every non-string argument (null, undefined, numbers,
booleans), `disallowsSameSiteNone` returns `false`; in the embedding it is a
total function, so no exception escapes. -/
theorem claim_C9_nonstring_false (a : JSArg) (h : jsIsString a = false) :
    disallowsSameSiteNone a = false := by
  cases a <;> simp_all [jsIsString, disallowsSameSiteNone]

/-- Witness for C9: a numeric argument yields `false`. -/
theorem claim_C9_nonstring_false_witness :
    jsIsString (JSArg.num 3) = false ∧ disallowsSameSiteNone (JSArg.num 3) = false :=
  ⟨rfl, claim_C9_nonstring_false (JSArg.num 3) rfl⟩

/-- Claim C10: `dateTimeUtilsDuration` (exposed as `DateTimeUtils.GetDuration`)
returns `null` whenever either argument is `0`, `null` or `undefined`; for all
other numeric arguments it returns `end - start`, which is negative when the
end precedes the start. -/
theorem claim_C10_duration :
    (∀ a b : Option Int, (a = some 0 ∨ a = none ∨ b = some 0 ∨ b = none) →
      dateTimeUtilsDuration a b = none) ∧
    (∀ x y : Int, x ≠ 0 → y ≠ 0 → dateTimeUtilsDuration (some x) (some y) = some (y - x)) ∧
    DateTimeUtils.GetDuration = dateTimeUtilsDuration := by
  refine ⟨?_, ?_, rfl⟩
  · rintro a b (rfl | rfl | rfl | rfl)
    · cases b <;> simp [dateTimeUtilsDuration]
    · rfl
    · cases a <;> simp [dateTimeUtilsDuration]
    · cases a <;> simp [dateTimeUtilsDuration]
  · intro x y hx hy
    simp [dateTimeUtilsDuration, bne_iff_ne, hx, hy]

/-- Witness for C10: a zero start yields `null`; start `5`, end `2` yields the
negative duration `-3`. -/
theorem claim_C10_duration_witness :
    dateTimeUtilsDuration (some 0) (some 2) = none ∧
    dateTimeUtilsDuration (some 5) (some 2) = some (-3) := by
  constructor
  · exact claim_C10_duration.1 (some 0) (some 2) (Or.inl rfl)
  · have h := claim_C10_duration.2.1 5 2 (by decide) (by decide)
    rw [h]
    decide
